import Mathlib

set_option autoImplicit false

/-!
Verification of the request/response relay core of the bitburner-companion
extension (class BitburnerServer, error taxonomy in errors.ts).  The relevant
TypeScript is shallowly embedded below: each definition mirrors one function
or field of the source, with JavaScript runtime details (strict equality,
truthiness, Map and Set semantics, promise settle-once discipline) made
explicit.  Payload values are modelled by a small JSON value type; the relay
treats payloads as opaque, so the exact constructor set is immaterial.
-/

namespace Bitburner

/-- JSON payload values exchanged in messages.  Arrays and objects are not
needed by any property proved here (the relay treats payloads as opaque), so
primitive values suffice as the payload universe. -/
inductive JsonValue where
  | null
  | bool (b : Bool)
  | num (n : Int)
  | str (s : String)
deriving DecidableEq, Repr

/-- JavaScript truthiness of a payload value, as tested by the source in
conditions such as the falsy-response check of the relay paths. -/
def JsonValue.truthy : JsonValue → Bool
  | .null => false
  | .bool b => b
  | .num n => n != 0
  | .str s => s != ""

/-- The error taxonomy of errors.ts (enum BitburnerErrorCode). -/
inductive BitburnerErrorCode where
  | Failed
  | UnknownMessage
  | MissingParameters
  | InvalidFile
  | InvalidFileExtension
  | InvalidHostname
  | FileNotFound
  | RamNotCalculated
  | ResponseTimeout
deriving DecidableEq, Repr

/-- The string value each enum member carries in the source
(BitburnerErrorCode is a string enum; note InvalidFile is spelled
InvalidFilePath there). -/
def BitburnerErrorCode.toStringValue : BitburnerErrorCode → String
  | .Failed => "Failed"
  | .UnknownMessage => "UnknownMessage"
  | .MissingParameters => "MissingParameters"
  | .InvalidFile => "InvalidFilePath"
  | .InvalidFileExtension => "InvalidFileExtension"
  | .InvalidHostname => "InvalidHostname"
  | .FileNotFound => "FileNotFound"
  | .RamNotCalculated => "RamNotCalculated"
  | .ResponseTimeout => "ResponseTimeout"

/-- A BitburnerError value: the typed code plus the original message string
(class BitburnerError in errors.ts; the Error superclass message is derived
data and not modelled). -/
structure BitburnerError where
  code : BitburnerErrorCode
  originalMessage : String
deriving DecidableEq, Repr

/-- Function parseErrorCode of errors.ts: exact-match lookup of the error
string from the game against known phrases, defaulting to Failed. -/
def parseErrorCode (error : String) : BitburnerErrorCode :=
  match error with
  | "Misses parameters" => .MissingParameters
  | "Message misses parameters" => .MissingParameters
  | "Invalid file path" => .InvalidFile
  | "Invalid filename" => .InvalidFile
  | "Invalid file extension" => .InvalidFileExtension
  | "File doesn\x27t exist" => .FileNotFound
  | "Server hostname invalid" => .InvalidHostname
  | "Ram cost could not be calculated" => .RamNotCalculated
  | _ => .Failed

/-- Static method BitburnerError.fromErrorMessage: builds the typed error,
returning null when the parsed code is falsy.  In the source every enum value
is a non-empty string, so the null branch is unreachable; the JavaScript
truthiness test on the code string is kept verbatim. -/
def fromErrorMessage (errorMessage : String) : Option BitburnerError :=
  let code := parseErrorCode errorMessage
  if code.toStringValue = "" then none
  else some ⟨code, errorMessage⟩

/-- A wire message (interface Message).  Absent fields are none; an explicit
JSON null in the result field is some JsonValue.null, which the source
distinguishes from absence via strict equality with null.  The id field is
none when absent or non-numeric (the source tests typeof id === number). -/
structure Message where
  jsonrpc : Option String
  id : Option Int
  method : Option String
  params : Option JsonValue
  result : Option JsonValue
  error : Option String
deriving DecidableEq, Repr

/-- Observable state of one pending request promise.  A promise settles at
most once; later resolve or reject calls are no-ops. -/
inductive PromiseState where
  | pending
  | fulfilled (v : Option JsonValue)
  | rejected (e : BitburnerError)
deriving DecidableEq, Repr

/-- Effect of calling resolve on a promise: only a pending promise settles. -/
def promiseResolve (p : PromiseState) (v : Option JsonValue) : PromiseState :=
  match p with
  | .pending => .fulfilled v
  | s => s

/-- Effect of calling reject on a promise: only a pending promise settles. -/
def promiseReject (p : PromiseState) (e : BitburnerError) : PromiseState :=
  match p with
  | .pending => .rejected e
  | s => s

/-- The pending-request table (field messagePromises, a Map from numeric id to
the resolve/reject pair).  Modelled as an association list from id to the
observable promise state. -/
abbrev Table := List (Int × PromiseState)

/-- Map.prototype.get. -/
def tableGet (t : Table) (k : Int) : Option PromiseState :=
  match t with
  | [] => none
  | (k2, v) :: rest => if k2 = k then some v else tableGet rest k

/-- Map.prototype.set: replaces an existing binding in place, else appends. -/
def tableSet (t : Table) (k : Int) (v : PromiseState) : Table :=
  match t with
  | [] => [(k, v)]
  | (k2, v2) :: rest =>
      if k2 = k then (k, v) :: rest else (k2, v2) :: tableSet rest k v

/-- Map.prototype.delete: removes the binding for k (a Map holds at most one
binding per key, so removing every matching entry is the same operation). -/
def tableDelete (t : Table) (k : Int) : Table :=
  t.filter (fun e => e.1 != k)

/-- A relay queue entry (field relayQueue): the rewritten outbound message,
a handle identifying the originating relay connection, and the relay client
original identifier used to translate the eventual response back. -/
structure QueueEntry where
  message : Message
  conn : Nat
  originalId : Int
deriving DecidableEq, Repr

/-- The state of a BitburnerServer relevant to the proved properties:
whether a game (primary) WebSocket is connected, the JSON-RPC message
counter, the pending-request table, the ids with a scheduled response
timeout, the relay connection set (keys of the relayConnections Map), the
failed-relay set and the relay queue. -/
structure ServerState where
  wsConnected : Bool
  messageCounter : Nat
  messagePromises : Table
  pendingTimeouts : List Int
  relayConnections : List String
  failedRelays : List String
  relayQueue : List QueueEntry
deriving DecidableEq, Repr

/-- The body supplied by an RPC facade call: a method name and an optional
parameter payload (every facade call site passes exactly these fields). -/
structure RequestBody where
  method : String
  params : Option JsonValue
deriving DecidableEq, Repr

/-- The full outbound frame built by send: the body spread together with a
fresh id and the protocol tag. -/
def mkFullMessage (body : RequestBody) (id : Nat) : Message :=
  { jsonrpc := some ("2.0"), id := some (id : Int), method := some body.method,
    params := body.params, result := none, error := none }

/-- Result of a call to send as seen by the caller: an immediately resolved
null (game not connected), or a pending promise registered under a fresh
identifier. -/
inductive SendResult where
  | unavailable
  | pending (id : Nat)
deriving DecidableEq, Repr

/-- Return bundle of send: the updated server state, the promise returned to
the caller, and the frame transmitted to the game (none when nothing was
transmitted). -/
structure SendOutput where
  state : ServerState
  result : SendResult
  transmitted : Option Message
deriving DecidableEq, Repr

/-- Method send of BitburnerServer: with no game connection it returns
Promise.resolve(null) and performs no other effect; otherwise it draws a
fresh id from the shared counter, stores a pending entry in messagePromises,
schedules the response timeout for that id and transmits the frame. -/
def send (s : ServerState) (body : RequestBody) : SendOutput :=
  if s.wsConnected = false then
    { state := s, result := .unavailable, transmitted := none }
  else
    let id := s.messageCounter
    { state := { s with
        messageCounter := id + 1,
        messagePromises := tableSet s.messagePromises (id : Int) .pending,
        pendingTimeouts := s.pendingTimeouts ++ [(id : Int)] },
      result := .pending id,
      transmitted := some (mkFullMessage body id) }

/-- The setTimeout callback scheduled by send for a given id: if the id is
still in the table it is deleted and the promise rejected with
ResponseTimeout; otherwise nothing happens.  Returns the new table and the
final promise state of the affected entry, if any. -/
def timeoutFire (t : Table) (id : Int) : Table × Option (Int × PromiseState) :=
  match tableGet t id with
  | some p =>
      (tableDelete t id, some (id, promiseReject p ⟨.ResponseTimeout, "response timeout"⟩))
  | none => (t, none)

/-- JavaScript truthiness of the optional error string field (an absent field
and an empty string are both falsy). -/
def jsTruthyStr : Option String → Bool
  | none => false
  | some s => s != ""

/-- Return bundle of handleMessage: the updated table, plus the id and final
promise state of the matched pending request (none when the message was
dropped as invalid or unknown). -/
structure HandleOutput where
  table : Table
  settled : Option (Int × PromiseState)
deriving DecidableEq, Repr

/-- Method handleMessage of BitburnerServer, translated statement by
statement.  Notable source structure kept verbatim: the error branch does not
return early, the null-result branch rejects and returns without deleting the
table entry, and the final resolve-and-delete runs whenever the result is not
strictly equal to null (in particular when it is absent). -/
def handleMessage (t : Table) (message : Message) : HandleOutput :=
  match message.id with
  | none => { table := t, settled := none }
  | some id =>
    if message.jsonrpc ≠ some ("2.0") then { table := t, settled := none }
    else
      match tableGet t id with
      | none => { table := t, settled := none }
      | some p =>
        let p1 :=
          if jsTruthyStr message.error then
            let err :=
              match fromErrorMessage ((message.error).getD "") with
              | some e => e
              | none => ⟨.Failed, (message.error).getD ""⟩
            promiseReject p err
          else p
        if message.result = some JsonValue.null then
          { table := tableSet t id (promiseReject p1 ⟨.Failed, "invalid response"⟩),
            settled := some (id, promiseReject p1 ⟨.Failed, "invalid response"⟩) }
        else
          { table := tableDelete t id,
            settled := some (id, promiseResolve p1 message.result) }

/-- The close handler installed on the game socket by setupClient: it clears
the connection reference and fires the disconnect callback.  It does not
touch messagePromises. -/
def onPrimaryClose (s : ServerState) : ServerState :=
  { s with wsConnected := false }

/-- The Symbol.dispose method: closes the game socket (whose close handler
clears the reference), closes every relay socket (whose close handlers empty
the relay connection map) and cancels the recheck interval.  It does not
touch messagePromises. -/
def disposeServer (s : ServerState) : ServerState :=
  { s with wsConnected := false, relayConnections := [] }

/-- The eventual settlement of the promise returned by send for a forwarded
request, as observed by the awaiting relay code: send resolved to null (the
game was not connected at send time), the request resolved with a payload, or
it rejected with a BitburnerError (send rejects with no other error type). -/
inductive SendOutcome where
  | disconnected
  | ok (v : JsonValue)
  | err (e : BitburnerError)
deriving DecidableEq, Repr

/-- What the relay message handler does with one inbound relay frame. -/
inductive RelayAction where
  | drop
  | respond (conn : Nat) (response : Message)
  | enqueue (entry : QueueEntry)
deriving DecidableEq, Repr

/-- The message handler installed on each relay socket by setupRelay.
Frames failing the protocol-tag or numeric-id validation are dropped.  A
valid frame is rewritten with a fresh identifier from the shared counter
(messageCounter postincrement).  If the game is connected the rewritten frame
is forwarded; a caught rejection or a falsy response is logged and dropped,
and a truthy response is delivered to the originating socket as the spread of
the original message with the result substituted in (hence under the relay
client original identifier).  If the game is not connected, a relay queue
entry is pushed instead.  The outcome of the forwarded send is supplied as an
argument since it arrives asynchronously. -/
def relayHandle (conn : Nat) (message : Message) (counter : Nat)
    (primaryConnected : Bool) (outcome : SendOutcome) : RelayAction × Nat :=
  match message.id with
  | none => (.drop, counter)
  | some originalId =>
    if message.jsonrpc ≠ some ("2.0") then (.drop, counter)
    else
      let actualMessage := { message with id := some (counter : Int) }
      let counter1 := counter + 1
      if primaryConnected then
        match outcome with
        | .ok v =>
            if v.truthy then
              (.respond conn { message with result := some v }, counter1)
            else (.drop, counter1)
        | _ => (.drop, counter1)
      else
        (.enqueue ⟨actualMessage, conn, originalId⟩, counter1)

/-- What the requeue loop does with one drained queue entry. -/
inductive RequeueResult where
  | requeued (entry : QueueEntry)
  | responded (conn : Nat) (response : Message)
deriving DecidableEq, Repr

/-- One iteration of the requeue drain in the constructor interval: the
entry is re-sent; a null or falsy response means the game socket became
unavailable again and the entry is collected for re-queueing; a truthy
response is delivered on the originating socket as the spread of the stored
rewritten message with the id replaced by the stored original identifier and
the result substituted in; a caught BitburnerError is delivered the same way
as an error-shaped response. -/
def requeueProcess (entry : QueueEntry) (outcome : SendOutcome) : RequeueResult :=
  match outcome with
  | .disconnected => .requeued entry
  | .ok v =>
      if v.truthy then
        .responded entry.conn
          { entry.message with id := some entry.originalId, result := some v }
      else .requeued entry
  | .err e =>
      .responded entry.conn
        { entry.message with id := some entry.originalId, error := some e.originalMessage }

/-- The identifier allocator: the expression messageCounter++ shared by the
facade send path and the relay-forwarding path. -/
def nextMessageId (s : ServerState) : Nat × ServerState :=
  (s.messageCounter, { s with messageCounter := s.messageCounter + 1 })

/-- The identifiers produced by n successive draws from the allocator,
in draw order. -/
def drawIds : ServerState → Nat → ServerState × List Nat
  | s, 0 => (s, [])
  | s, n+1 =>
      let (id, s1) := nextMessageId s
      let (s2, ids) := drawIds s1 n
      (s2, id :: ids)

/-- The settled outcome of the promise returned by send, as observed by a
facade method composing on it with then and catch. -/
inductive CallOutcome where
  | unavailable
  | success (v : JsonValue)
  | failure (e : BitburnerError)
deriving DecidableEq, Repr

/-- The settlement of the promise a facade method returns to its caller:
resolved with a value, or rejected with a BitburnerError. -/
inductive FacadeResult (α : Type) where
  | value (v : α)
  | thrown (e : BitburnerError)
deriving DecidableEq, Repr

/-- Facade method pushFile: then(res => res === "OK").  A null resolution
(game not connected) is not strictly equal to the string OK, so it maps to
false; rejections are not caught and propagate. -/
def pushFile (outcome : CallOutcome) : FacadeResult Bool :=
  match outcome with
  | .unavailable => .value false
  | .success v => .value (v == .str ("OK"))
  | .failure e => .thrown e

/-- Facade method deleteFile: same composition as pushFile. -/
def deleteFile (outcome : CallOutcome) : FacadeResult Bool :=
  match outcome with
  | .unavailable => .value false
  | .success v => .value (v == .str ("OK"))
  | .failure e => .thrown e

/-- Facade method getFileNames: catch(() => null) maps every rejection,
whatever its error kind, to a null resolution. -/
def getFileNames (outcome : CallOutcome) : FacadeResult (Option JsonValue) :=
  match outcome with
  | .unavailable => .value none
  | .success v => .value (some v)
  | .failure _ => .value none

/-- Facade method getFiles: same composition as getFileNames. -/
def getFiles (outcome : CallOutcome) : FacadeResult (Option JsonValue) :=
  match outcome with
  | .unavailable => .value none
  | .success v => .value (some v)
  | .failure _ => .value none

/-- Facade method calculateRam: catch re-resolves with -1 exactly when the
caught error is a BitburnerError with code RamNotCalculated and rethrows
every other error; a resolution passes through unchanged. -/
def calculateRam (outcome : CallOutcome) : FacadeResult (Option JsonValue) :=
  match outcome with
  | .unavailable => .value none
  | .success v => .value (some v)
  | .failure e =>
      if e.code = .RamNotCalculated then .value (some (.num (-1)))
      else .thrown e

/-- JavaScript String.prototype.startsWith, on the character sequence. -/
def jsStartsWith (s p : String) : Bool :=
  p.data.isPrefixOf s.data

/-- Function normalizeAddress: prefix with the default transport scheme when
neither scheme prefix is present. -/
def normalizeAddress (address : String) : String :=
  if !(jsStartsWith address ("ws://")) && !(jsStartsWith address ("wss://")) then
    "ws://" ++ address
  else address

/-- Insertion into a Map key set or a Set: a no-op when the element is
already present, else appended in iteration order. -/
def insertAddr (l : List String) (a : String) : List String :=
  if a ∈ l then l else l ++ [a]

/-- Method addRelay, restricted to its effect on the tracked address sets:
the address is normalized, then a successful connection registers it in the
relay connection map while a failed one records it in the failed-relay set.
Whether a given address connects is supplied by the environment. -/
def addRelay (connects : String → Bool) (s : ServerState) (address : String) :
    ServerState :=
  if connects (normalizeAddress address) then
    { s with relayConnections :=
        insertAddr s.relayConnections (normalizeAddress address) }
  else
    { s with failedRelays := insertAddr s.failedRelays (normalizeAddress address) }

/-- The body of the first loop of syncRelayConnections: a configured address
not yet tracked in either set is passed to addRelay, otherwise skipped. -/
def syncStep (connects : String → Bool) (st : ServerState) (a : String) :
    ServerState :=
  if ¬ (a ∈ st.relayConnections) ∧ ¬ (a ∈ st.failedRelays) then
    addRelay connects st a
  else st

/-- The first loop of syncRelayConnections: iterate over the normalized
configured addresses, calling addRelay for each one not yet tracked. -/
def syncPhase1 (connects : String → Bool) (seen : List String)
    (s : ServerState) : ServerState :=
  seen.foldl (syncStep connects) s

/-- The second loop of syncRelayConnections: close every tracked connection
whose normalized address is not configured; its close handler removes it from
the connection map. -/
def syncPhase2 (seen : List String) (s : ServerState) : ServerState :=
  { s with relayConnections :=
      s.relayConnections.filter (fun k => decide (normalizeAddress k ∈ seen)) }

/-- The third loop of syncRelayConnections: drop every failed-relay entry
that is not configured. -/
def syncPhase3 (seen : List String) (s : ServerState) : ServerState :=
  { s with failedRelays := s.failedRelays.filter (fun a => decide (a ∈ seen)) }

/-- Method syncRelayConnections, with the configured relay address list and
the connection environment as arguments: every normalized configured address
not yet tracked in either set is passed to addRelay; then every tracked
connection whose normalized address is not configured is closed; then every
failed-relay entry not configured is dropped. -/
def syncRelayConnections (connects : String → Bool) (cfg : List String)
    (s : ServerState) : ServerState :=
  syncPhase3 (cfg.map normalizeAddress)
    (syncPhase2 (cfg.map normalizeAddress)
      (syncPhase1 connects (cfg.map normalizeAddress) s))

/-- A message shaped as a JSON-RPC request in the sense of the data model:
method present, no result and no error. -/
def Message.isRequest (m : Message) : Bool :=
  m.method.isSome && m.result.isNone && m.error.isNone

/-- A message shaped as a JSON-RPC response in the sense of the data model:
result or error present and no method. -/
def Message.isResponse (m : Message) : Bool :=
  (m.result.isSome || m.error.isSome) && m.method.isNone

/-! Helper lemmas about the table and promise operations. -/

theorem tableGet_tableSet_self (t : Table) (k : Int) (v : PromiseState) :
    tableGet (tableSet t k v) k = some v := by
  induction t with
  | nil => simp [tableSet, tableGet]
  | cons hd tl ih =>
      obtain ⟨k2, v2⟩ := hd
      by_cases h : k2 = k <;> simp [tableSet, tableGet, h, ih]

theorem tableGet_tableDelete_self (t : Table) (k : Int) :
    tableGet (tableDelete t k) k = none := by
  induction t with
  | nil => rfl
  | cons hd tl ih =>
      obtain ⟨k2, v2⟩ := hd
      by_cases h : k2 = k
      · simpa [tableDelete, List.filter_cons, h] using ih
      · simpa [tableDelete, List.filter_cons, h, tableGet] using ih

/-- A concrete disconnected server state used by closed witnesses. -/
def stateDisconnected : ServerState :=
  { wsConnected := false, messageCounter := 0, messagePromises := [],
    pendingTimeouts := [], relayConnections := [], failedRelays := [],
    relayQueue := [] }

/-- A concrete connected server state with one pending request (id 2). -/
def statePendingOne : ServerState :=
  { wsConnected := true, messageCounter := 3,
    messagePromises := [((2 : Int), .pending)],
    pendingTimeouts := [(2 : Int)], relayConnections := [], failedRelays := [],
    relayQueue := [] }

/-- C1: a call to send while no primary connection is present resolves
immediately to the null unavailable sentinel (a resolution, not a rejection),
leaves the whole server state, in particular the pending-request table,
unchanged, schedules no timeout and transmits nothing. -/
theorem send_without_primary_resolves_null (s : ServerState) (body : RequestBody)
    (h : s.wsConnected = false) :
    send s body = { state := s, result := .unavailable, transmitted := none } ∧
    (send s body).state.messagePromises = s.messagePromises ∧
    (send s body).state.pendingTimeouts = s.pendingTimeouts := by
  simp [send, h]

/-- C1 witness: the theorem applied to a concrete disconnected state. -/
theorem send_without_primary_resolves_null_witness :
    send stateDisconnected ⟨"getFileNames", none⟩ =
      { state := stateDisconnected, result := .unavailable, transmitted := none } ∧
    (send stateDisconnected ⟨"getFileNames", none⟩).state.messagePromises =
      stateDisconnected.messagePromises ∧
    (send stateDisconnected ⟨"getFileNames", none⟩).state.pendingTimeouts =
      stateDisconnected.pendingTimeouts :=
  send_without_primary_resolves_null stateDisconnected ⟨"getFileNames", none⟩ rfl

/-- C5 counterexample: when the primary connection closes, the close handler
only clears the connection reference; the pending request with id 2 stays in
the table in the pending state, so it is not rejected at disconnect time.
The dispose path leaves the table untouched as well. -/
theorem primary_close_leaves_pending_unrejected_cex :
    (onPrimaryClose statePendingOne).messagePromises =
      [((2 : Int), PromiseState.pending)] ∧
    (onPrimaryClose statePendingOne).wsConnected = false ∧
    tableGet (onPrimaryClose statePendingOne).messagePromises 2 =
      some PromiseState.pending ∧
    (disposeServer statePendingOne).messagePromises =
      [((2 : Int), PromiseState.pending)] :=
  ⟨rfl, rfl, rfl, rfl⟩

/-- C5 amended: closing the primary connection leaves every pending request
untouched in the table (none is rejected by the close handler, which only
clears the connection reference; dispose also leaves the table untouched);
each pending request is instead rejected with ResponseTimeout, and removed
from the table, when its own scheduled timeout fires. -/
theorem primary_close_pending_rejected_by_timeout (s : ServerState) (id : Int)
    (h : tableGet s.messagePromises id = some .pending) :
    (onPrimaryClose s).messagePromises = s.messagePromises ∧
    (onPrimaryClose s).wsConnected = false ∧
    (disposeServer s).messagePromises = s.messagePromises ∧
    (timeoutFire s.messagePromises id).2 =
      some (id, .rejected ⟨.ResponseTimeout, "response timeout"⟩) ∧
    tableGet (timeoutFire s.messagePromises id).1 id = none := by
  refine ⟨rfl, rfl, rfl, ?_, ?_⟩
  · simp [timeoutFire, h, promiseReject]
  · simp [timeoutFire, h, tableGet_tableDelete_self]

/-- C5 witness: the amended theorem applied to the concrete state with one
pending request. -/
theorem primary_close_pending_rejected_by_timeout_witness :
    (onPrimaryClose statePendingOne).messagePromises =
      statePendingOne.messagePromises ∧
    (onPrimaryClose statePendingOne).wsConnected = false ∧
    (disposeServer statePendingOne).messagePromises =
      statePendingOne.messagePromises ∧
    (timeoutFire statePendingOne.messagePromises 2).2 =
      some (2, .rejected ⟨.ResponseTimeout, "response timeout"⟩) ∧
    tableGet (timeoutFire statePendingOne.messagePromises 2).1 2 = none :=
  primary_close_pending_rejected_by_timeout statePendingOne 2 rfl

/-- C6: code bug evidence.  The catch handlers of getFileNames and getFiles
swallow every rejection into a null resolution, including ResponseTimeout and
InvalidHostname, although the documentation comments of both methods state
that an InvalidHostname error is thrown to the caller. -/
theorem getFileNames_getFiles_swallow_all_errors :
    getFileNames (.failure ⟨.ResponseTimeout, "response timeout"⟩) = .value none ∧
    getFileNames (.failure ⟨.InvalidHostname, "Server hostname invalid"⟩) =
      .value none ∧
    getFiles (.failure ⟨.InvalidHostname, "Server hostname invalid"⟩) =
      .value none ∧
    getFiles (.failure ⟨.ResponseTimeout, "response timeout"⟩) = .value none :=
  ⟨rfl, rfl, rfl, rfl⟩

/-- C7: calculateRam maps a rejection to the sentinel -1 exactly when the
error code is RamNotCalculated, rethrows every other typed error unchanged,
and passes a successful numeric cost through unchanged. -/
theorem calculateRam_sentinel_behavior :
    (∀ e : BitburnerError,
        (calculateRam (.failure e) = .value (some (.num (-1))) ↔
          e.code = .RamNotCalculated)) ∧
    (∀ e : BitburnerError, e.code ≠ .RamNotCalculated →
        calculateRam (.failure e) = .thrown e) ∧
    (∀ v : JsonValue, calculateRam (.success v) = .value (some v)) := by
  refine ⟨?_, ?_, ?_⟩
  · intro e
    by_cases h : e.code = .RamNotCalculated <;> simp [calculateRam, h]
  · intro e h
    simp [calculateRam, h]
  · intro v
    rfl

/-- C7 witness: the rethrow branch applied to a concrete InvalidFile error,
and the sentinel branch applied to a concrete RamNotCalculated error. -/
theorem calculateRam_sentinel_behavior_witness :
    calculateRam (.failure ⟨.InvalidFile, "Invalid file path"⟩) =
      .thrown ⟨.InvalidFile, "Invalid file path"⟩ ∧
    calculateRam (.failure ⟨.RamNotCalculated, "Ram cost could not be calculated"⟩) =
      .value (some (.num (-1))) :=
  ⟨calculateRam_sentinel_behavior.2.1 ⟨.InvalidFile, "Invalid file path"⟩ (by decide),
   (calculateRam_sentinel_behavior.1
      ⟨.RamNotCalculated, "Ram cost could not be calculated"⟩).mpr rfl⟩

/-- A concrete well-formed relay request used by the C9 counterexample. -/
def relayRequestEx : Message :=
  { jsonrpc := some ("2.0"), id := some 1, method := some ("getFileNames"),
    params := some (.str ("home")), result := none, error := none }

/-- C9 counterexample: the response the relay delivers back to a relay client
is the spread of the original request with the result substituted in, so it
carries the method field of the request alongside the result, making it
neither a pure request nor a pure response in the sense of the data model. -/
theorem relay_response_carries_method_cex :
    (relayHandle 7 relayRequestEx 5 true (.ok (.str ("files")))).1 =
      .respond 7 { relayRequestEx with result := some (.str ("files")) } ∧
    ({ relayRequestEx with result := some (.str ("files")) } : Message).method =
      some ("getFileNames") ∧
    Message.isResponse { relayRequestEx with result := some (.str ("files")) } =
      false ∧
    Message.isRequest { relayRequestEx with result := some (.str ("files")) } =
      false ∧
    (requeueProcess ⟨{ relayRequestEx with id := some 5 }, 7, 1⟩
        (.ok (.str ("files"))) =
      .responded 7 { relayRequestEx with result := some (.str ("files")) }) ∧
    Message.isResponse { relayRequestEx with result := some (.str ("files")) } =
      false := by
  refine ⟨?_, rfl, rfl, rfl, ?_, rfl⟩ <;> rfl

/-- C9 amended: every frame the facade send path constructs toward the
primary is a pure request (method present, no result and no error); but the
responses the relay delivers back to relay clients, both on the immediate
path and on the requeue path, are the original request spread with a result
or error added, so they preserve the request method field and result or
error together, violating the request-or-response exclusivity. -/
theorem relay_messages_shape :
    (∀ body : RequestBody, ∀ id : Nat, (mkFullMessage body id).isRequest = true) ∧
    (∀ conn : Nat, ∀ m : Message, ∀ counter : Nat, ∀ oc : SendOutcome,
      ∀ c : Nat, ∀ resp : Message,
        (relayHandle conn m counter true oc).1 = .respond c resp →
        resp.method = m.method ∧ resp.result.isSome = true) ∧
    (∀ e : QueueEntry, ∀ oc : SendOutcome, ∀ c : Nat, ∀ resp : Message,
        requeueProcess e oc = .responded c resp →
        resp.method = e.message.method ∧
        (resp.result.isSome || resp.error.isSome) = true) := by
  refine ⟨?_, ?_, ?_⟩
  · intro body id
    rfl
  · intro conn m counter oc c resp h
    unfold relayHandle at h
    cases hid : m.id with
    | none => rw [hid] at h; simp at h
    | some k =>
        rw [hid] at h
        by_cases hj : m.jsonrpc = some ("2.0")
        · simp only [hj] at h
          cases oc with
          | disconnected => simp at h
          | err e => simp at h
          | ok v =>
              by_cases hv : v.truthy = true <;> simp [hv] at h
              obtain ⟨hc, hresp⟩ := h
              rw [← hresp]
              exact ⟨rfl, rfl⟩
        · simp [hj] at h
  · intro e oc c resp h
    cases oc with
    | disconnected => simp [requeueProcess] at h
    | ok v =>
        by_cases hv : v.truthy = true <;> simp [requeueProcess, hv] at h
        obtain ⟨hc, hresp⟩ := h
        rw [← hresp]
        exact ⟨rfl, rfl⟩
    | err e2 =>
        simp [requeueProcess] at h
        obtain ⟨hc, hresp⟩ := h
        rw [← hresp]
        simp

/-- A concrete forwarded relay request used by the C9 witness. -/
def forwardedRequestEx : Message :=
  { jsonrpc := some ("2.0"), id := some 2, method := some ("getFile"),
    params := none, result := none, error := none }

/-- C9 witness: the amended theorem applied to a concrete forwarded request
and its concrete truthy response. -/
theorem relay_messages_shape_witness :
    (mkFullMessage ⟨"getFile", some (.str ("x.js"))⟩ 3).isRequest = true ∧
    (Message.method { forwardedRequestEx with result := some (.str ("data")) } =
      forwardedRequestEx.method ∧
     Option.isSome
        (Message.result { forwardedRequestEx with result := some (.str ("data")) }) =
      true) :=
  ⟨relay_messages_shape.1 ⟨"getFile", some (.str ("x.js"))⟩ 3,
   relay_messages_shape.2.1 0 forwardedRequestEx 8 (.ok (.str ("data"))) 0
     { forwardedRequestEx with result := some (.str ("data")) } (by decide)⟩

/-- Helper: the identifiers of n successive draws starting at the current
counter value form the contiguous ascending range from that value. -/
theorem drawIds_spec (n : Nat) : ∀ s : ServerState,
    (drawIds s n).2 = List.range' s.messageCounter n ∧
    (drawIds s n).1.messageCounter = s.messageCounter + n := by
  induction n with
  | zero => intro s; exact ⟨rfl, rfl⟩
  | succ n ih =>
      intro s
      obtain ⟨h1, h2⟩ := ih { s with messageCounter := s.messageCounter + 1 }
      have h1b : (drawIds { s with messageCounter := s.messageCounter + 1 } n).2 =
          List.range' (s.messageCounter + 1) n := h1
      have h2b :
          (drawIds { s with messageCounter := s.messageCounter + 1 } n).1.messageCounter =
            s.messageCounter + 1 + n := h2
      constructor
      · show s.messageCounter ::
            (drawIds { s with messageCounter := s.messageCounter + 1 } n).2 =
            List.range' s.messageCounter (n + 1)
        rw [List.range'_succ, h1b]
      · show (drawIds { s with messageCounter := s.messageCounter + 1 } n).1.messageCounter =
            s.messageCounter + (n + 1)
        omega

/-- C4: starting from the initial counter value 0, successive identifier
draws produce exactly 0, 1, 2, ... in order — a strictly increasing,
pairwise distinct sequence; every connected send assigns the current counter
value as the identifier of its pending request and bumps the shared counter,
and every valid relay frame rewrite bumps the same shared counter, so any
two in-flight requests, local or relayed, receive distinct identifiers. -/
theorem message_ids_strictly_increasing (s : ServerState) (n : Nat)
    (h0 : s.messageCounter = 0) :
    (drawIds s n).2 = List.range n ∧
    List.Pairwise (· < ·) (drawIds s n).2 ∧
    List.Pairwise (· ≠ ·) (drawIds s n).2 ∧
    (∀ st : ServerState, ∀ body : RequestBody, st.wsConnected = true →
        (send st body).result = .pending st.messageCounter ∧
        (send st body).state.messageCounter = st.messageCounter + 1 ∧
        tableGet (send st body).state.messagePromises (st.messageCounter : Int) =
          some .pending) ∧
    (∀ conn : Nat, ∀ m : Message, ∀ counter : Nat, ∀ pc : Bool,
      ∀ oc : SendOutcome, ∀ k : Int, m.jsonrpc = some ("2.0") → m.id = some k →
        (relayHandle conn m counter pc oc).2 = counter + 1) := by
  have hdraw := (drawIds_spec n s).1
  rw [h0] at hdraw
  rw [← List.range_eq_range'] at hdraw
  refine ⟨hdraw, ?_, ?_, ?_, ?_⟩
  · rw [hdraw]
    exact List.pairwise_lt_range n
  · rw [hdraw]
    exact (List.pairwise_lt_range n).imp Nat.ne_of_lt
  · intro st body h
    refine ⟨?_, ?_, ?_⟩ <;> simp [send, h, tableGet_tableSet_self]
  · intro conn m counter pc oc k hj hk
    unfold relayHandle
    rw [hk]
    simp only [hj]
    cases pc with
    | false => simp
    | true =>
        cases oc with
        | disconnected => simp
        | err e => simp
        | ok v => by_cases hv : v.truthy = true <;> simp [hv]

/-- A concrete connected server state with counter 0 for the C4 witness. -/
def stateFresh : ServerState :=
  { wsConnected := true, messageCounter := 0, messagePromises := [],
    pendingTimeouts := [], relayConnections := [], failedRelays := [],
    relayQueue := [] }

/-- A concrete relay client request (original id 9) used by witnesses. -/
def relayClientMsgEx : Message :=
  { jsonrpc := some ("2.0"), id := some 9, method := some ("getFile"),
    params := none, result := none, error := none }

/-- A concrete queue entry: relayClientMsgEx rewritten to internal id 11,
originating connection 4, original id 9. -/
def queueEntryEx : QueueEntry :=
  ⟨{ relayClientMsgEx with id := some 11 }, 4, 9⟩

/-- The response the requeue loop delivers for queueEntryEx on a successful
drain with payload ok. -/
def drainedResponseEx : Message :=
  { relayClientMsgEx with id := some 9, result := some (.str ("ok")) }

/-- C4 witness: the theorem applied to a concrete fresh connected state with
three draws, to a concrete local send from that state, and to a concrete
valid relay frame at counter 11. -/
theorem message_ids_strictly_increasing_witness :
    (drawIds stateFresh 3).2 = List.range 3 ∧
    List.Pairwise (· < ·) (drawIds stateFresh 3).2 ∧
    (send stateFresh ⟨"getAllServers", none⟩).result =
      .pending stateFresh.messageCounter ∧
    (send stateFresh ⟨"getAllServers", none⟩).state.messageCounter =
      stateFresh.messageCounter + 1 ∧
    (relayHandle 4 relayClientMsgEx 11 false .disconnected).2 = 11 + 1 :=
  ⟨(message_ids_strictly_increasing stateFresh 3 rfl).1,
   (message_ids_strictly_increasing stateFresh 3 rfl).2.1,
   ((message_ids_strictly_increasing stateFresh 3 rfl).2.2.2.1 stateFresh
      ⟨"getAllServers", none⟩ rfl).1,
   ((message_ids_strictly_increasing stateFresh 3 rfl).2.2.2.1 stateFresh
      ⟨"getAllServers", none⟩ rfl).2.1,
   (message_ids_strictly_increasing stateFresh 3 rfl).2.2.2.2 4 relayClientMsgEx
      11 false .disconnected 9 rfl rfl⟩

/-- C10: with no primary connected, send resolves to the unavailable
sentinel, and pushFile and deleteFile then resolve to false because null is
not strictly equal to the string OK; any successful response whose result is
not the string OK also yields false, so the two situations are
indistinguishable at these two facade methods. -/
theorem facade_unavailable_maps_to_false :
    (∀ s : ServerState, ∀ body : RequestBody, s.wsConnected = false →
        (send s body).result = .unavailable) ∧
    pushFile .unavailable = .value false ∧
    deleteFile .unavailable = .value false ∧
    (∀ v : JsonValue, v ≠ .str ("OK") →
        pushFile (.success v) = .value false ∧
        deleteFile (.success v) = .value false ∧
        pushFile (.success v) = pushFile .unavailable ∧
        deleteFile (.success v) = deleteFile .unavailable) := by
  refine ⟨?_, rfl, rfl, ?_⟩
  · intro s body h
    simp [send, h]
  · intro v h
    have hb : (v == JsonValue.str ("OK")) = false := by
      simpa using h
    simp [pushFile, deleteFile, hb]

/-- Helper: fromErrorMessage never returns null, because every enum member
carries a non-empty string value. -/
theorem fromErrorMessage_eq (s : String) :
    fromErrorMessage s = some ⟨parseErrorCode s, s⟩ := by
  have h : (parseErrorCode s).toStringValue ≠ "" := by
    cases h : parseErrorCode s <;> simp [BitburnerErrorCode.toStringValue]
  simp [fromErrorMessage, h]

/-- C2 counterexample: two inbound responses matching a pending request.
First, a message whose result field is absent and which carries no error is
fulfilled with the undefined value rather than rejected with a generic
failure, because the strict comparison result === null is false for an
absent field.  Second, a message whose result is explicitly null leaves the
pending entry in the table (the rejecting branch returns before the delete),
so the entry is not removed by the handler. -/
theorem handleMessage_claim_cex :
    handleMessage [((0 : Int), .pending)]
        { jsonrpc := some ("2.0"), id := some 0, method := some ("pushFile"),
          params := none, result := none, error := none } =
      { table := [], settled := some (0, .fulfilled none) } ∧
    handleMessage [((0 : Int), .pending)]
        { jsonrpc := some ("2.0"), id := some 0, method := none,
          params := none, result := some .null, error := none } =
      { table := [((0 : Int), .rejected ⟨.Failed, "invalid response"⟩)],
        settled := some (0, .rejected ⟨.Failed, "invalid response"⟩) } := by
  constructor <;> rfl

/-- C2 amended: for an inbound message matching a pending request, a truthy
error field rejects the request with the typed error obtained by exact-match
lookup (unmatched strings map to Failed); with no truthy error, a result that
is strictly null rejects with a generic failure, while any other result,
including an absent one, fulfills the request with that result.  The entry is
removed from the table exactly when the result is not strictly null; a
strictly null result leaves the (settled) entry in the table, to be removed
later by the timeout for that id. -/
theorem handleMessage_settlement (t : Table) (m : Message) (id : Int)
    (hj : m.jsonrpc = some ("2.0")) (hid : m.id = some id)
    (hp : tableGet t id = some .pending) :
    (jsTruthyStr m.error = true →
        (handleMessage t m).settled =
          some (id, .rejected ⟨parseErrorCode ((m.error).getD ""), (m.error).getD ""⟩)) ∧
    (jsTruthyStr m.error = false → m.result = some .null →
        (handleMessage t m).settled =
          some (id, .rejected ⟨.Failed, "invalid response"⟩)) ∧
    (jsTruthyStr m.error = false → m.result ≠ some .null →
        (handleMessage t m).settled = some (id, .fulfilled m.result)) ∧
    (m.result = some .null → tableGet (handleMessage t m).table id ≠ none) ∧
    (m.result ≠ some .null → tableGet (handleMessage t m).table id = none) := by
  refine ⟨?_, ?_, ?_, ?_, ?_⟩
  · intro he
    by_cases hr : m.result = some .null <;>
      simp [handleMessage, hid, hj, hp, he, hr, fromErrorMessage_eq,
        promiseReject, promiseResolve]
  · intro he hr
    simp [handleMessage, hid, hj, hp, he, hr, promiseReject]
  · intro he hr
    simp [handleMessage, hid, hj, hp, he, hr, promiseResolve]
  · intro hr
    by_cases he : jsTruthyStr m.error = true <;>
      simp [handleMessage, hid, hj, hp, he, hr, fromErrorMessage_eq,
        promiseReject, tableGet_tableSet_self]
  · intro hr
    by_cases he : jsTruthyStr m.error = true <;>
      simp [handleMessage, hid, hj, hp, he, hr, fromErrorMessage_eq,
        promiseReject, tableGet_tableDelete_self]

/-- A concrete inbound error response used by the C2 witness: it matches
pending id 5 and carries an unmatched error string. -/
def errorResponseEx : Message :=
  { jsonrpc := some ("2.0"), id := some 5, method := none,
    params := none, result := none, error := some ("boom") }

/-- C2 witness: the amended theorem applied to a concrete table with pending
id 5 and a concrete error response carrying an unmatched error string: the
request is rejected with the typed Failed error and, since the result field
is absent rather than null, the entry is removed from the table. -/
theorem handleMessage_settlement_witness :
    (handleMessage [((5 : Int), .pending)] errorResponseEx).settled =
      some (5, .rejected ⟨parseErrorCode ((errorResponseEx.error).getD ""),
        (errorResponseEx.error).getD ""⟩) ∧
    tableGet (handleMessage [((5 : Int), .pending)] errorResponseEx).table 5 =
      none :=
  ⟨(handleMessage_settlement [((5 : Int), .pending)] errorResponseEx 5
      rfl rfl rfl).1 rfl,
   (handleMessage_settlement [((5 : Int), .pending)] errorResponseEx 5
      rfl rfl rfl).2.2.2.2 (by decide)⟩

/-- C3: a relayed request keeps its client-facing identifier.  For a valid
inbound relay frame carrying original identifier k, an immediately forwarded
response is delivered on the originating connection addressed with id k; a
queued entry records k as the original identifier together with the
originating connection; any response the requeue loop later delivers for an
entry with original identifier k, success-shaped or error-shaped, is
addressed with id k on the recorded connection; and a re-queued entry is kept
verbatim, so the recorded original identifier survives every drain cycle. -/
theorem relay_response_uses_original_id (conn : Nat) (m : Message)
    (counter : Nat) (pc : Bool) (oc : SendOutcome) (k : Int)
    (hj : m.jsonrpc = some ("2.0")) (hid : m.id = some k) :
    (∀ c : Nat, ∀ resp : Message,
        (relayHandle conn m counter pc oc).1 = .respond c resp →
        c = conn ∧ resp.id = some k) ∧
    (∀ e : QueueEntry, (relayHandle conn m counter pc oc).1 = .enqueue e →
        e.conn = conn ∧ e.originalId = k) ∧
    (∀ e : QueueEntry, ∀ oc2 : SendOutcome, ∀ c2 : Nat, ∀ resp2 : Message,
        e.originalId = k → requeueProcess e oc2 = .responded c2 resp2 →
        c2 = e.conn ∧ resp2.id = some k) ∧
    (∀ e : QueueEntry, ∀ oc2 : SendOutcome, ∀ e2 : QueueEntry,
        requeueProcess e oc2 = .requeued e2 → e2 = e) := by
  refine ⟨?_, ?_, ?_, ?_⟩
  · intro c resp h
    unfold relayHandle at h
    rw [hid] at h
    simp only [hj] at h
    cases pc with
    | false => simp at h
    | true =>
        cases oc with
        | disconnected => simp at h
        | err e => simp at h
        | ok v =>
            by_cases hv : v.truthy = true <;> simp [hv] at h
            obtain ⟨hc, hresp⟩ := h
            subst hc
            constructor
            · rfl
            · rw [← hresp]
  · intro e h
    unfold relayHandle at h
    rw [hid] at h
    simp only [hj] at h
    cases pc with
    | false =>
        simp at h
        rw [← h]
        exact ⟨rfl, rfl⟩
    | true =>
        cases oc with
        | disconnected => simp at h
        | err e2 => simp at h
        | ok v => by_cases hv : v.truthy = true <;> simp [hv] at h
  · intro e oc2 c2 resp2 hk h
    cases oc2 with
    | disconnected => simp [requeueProcess] at h
    | ok v =>
        by_cases hv : v.truthy = true <;> simp [requeueProcess, hv] at h
        obtain ⟨hc, hresp⟩ := h
        exact ⟨hc.symm, by rw [← hresp, hk]⟩
    | err e2 =>
        simp [requeueProcess] at h
        obtain ⟨hc, hresp⟩ := h
        exact ⟨hc.symm, by rw [← hresp, hk]⟩
  · intro e oc2 e2 h
    cases oc2 with
    | disconnected =>
        simp [requeueProcess] at h
        exact h.symm
    | ok v =>
        by_cases hv : v.truthy = true <;> simp [requeueProcess, hv] at h
        exact h.symm
    | err e3 => simp [requeueProcess] at h

/-- C3 witness: the theorem applied to the concrete queued-then-drained relay
request with original identifier 9: the queue entry records connection 4 and
original id 9, and the drained response is addressed with id 9. -/
theorem relay_response_uses_original_id_witness :
    (queueEntryEx.conn = 4 ∧ queueEntryEx.originalId = 9) ∧
    (4 = queueEntryEx.conn ∧ drainedResponseEx.id = some 9) :=
  ⟨(relay_response_uses_original_id 4 relayClientMsgEx 11 false .disconnected 9
      rfl rfl).2.1 queueEntryEx rfl,
   (relay_response_uses_original_id 4 relayClientMsgEx 11 false .disconnected 9
      rfl rfl).2.2.1 queueEntryEx (.ok (.str ("ok"))) 4 drainedResponseEx rfl rfl⟩

/-- Helper: appending a string to a prefix makes that prefix match. -/
theorem jsStartsWith_append (p s : String) : jsStartsWith (p ++ s) p = true := by
  simp [jsStartsWith]

/-- Helper: address normalization is idempotent, because the prefixed form
always starts with the default scheme. -/
theorem normalizeAddress_idem (a : String) :
    normalizeAddress (normalizeAddress a) = normalizeAddress a := by
  by_cases h1 : jsStartsWith a ("ws://") = true
  · simp [normalizeAddress, h1]
  · by_cases h2 : jsStartsWith a ("wss://") = true
    · simp [normalizeAddress, h1, h2]
    · simp [normalizeAddress, h1, h2, jsStartsWith_append]

/-- Helper: insertion puts the inserted element into the set. -/
theorem mem_insertAddr_self (l : List String) (a : String) : a ∈ insertAddr l a := by
  unfold insertAddr
  split
  · assumption
  · simp

/-- Helper: insertion keeps every element already in the set. -/
theorem mem_insertAddr_of_mem (l : List String) (a b : String) (h : a ∈ l) :
    a ∈ insertAddr l b := by
  unfold insertAddr
  split
  · exact h
  · exact List.mem_append_left _ h

/-- Helper: addRelay never removes an address from either tracked set. -/
theorem addRelay_mem_mono (c : String → Bool) (st : ServerState) (x a : String) :
    (a ∈ st.relayConnections → a ∈ (addRelay c st x).relayConnections) ∧
    (a ∈ st.failedRelays → a ∈ (addRelay c st x).failedRelays) := by
  unfold addRelay
  split
  · exact ⟨fun h => mem_insertAddr_of_mem _ _ _ h, id⟩
  · exact ⟨id, fun h => mem_insertAddr_of_mem _ _ _ h⟩

/-- Helper: one sync step never removes an address from either tracked set. -/
theorem syncStep_mem_mono (c : String → Bool) (st : ServerState) (x a : String) :
    (a ∈ st.relayConnections → a ∈ (syncStep c st x).relayConnections) ∧
    (a ∈ st.failedRelays → a ∈ (syncStep c st x).failedRelays) := by
  unfold syncStep
  split
  · exact addRelay_mem_mono c st x a
  · exact ⟨id, id⟩

/-- Helper: the first sync loop never removes an address from either set. -/
theorem syncPhase1_mem_mono (c : String → Bool) (l : List String) :
    ∀ st : ServerState, ∀ a : String,
      a ∈ st.relayConnections ∨ a ∈ st.failedRelays →
      a ∈ (syncPhase1 c l st).relayConnections ∨
        a ∈ (syncPhase1 c l st).failedRelays := by
  induction l with
  | nil => intro st a h; exact h
  | cons b tl ih =>
      intro st a h
      apply ih
      cases h with
      | inl h => exact Or.inl ((syncStep_mem_mono c st b a).1 h)
      | inr h => exact Or.inr ((syncStep_mem_mono c st b a).2 h)

/-- Helper: after one sync step on its own (already normalized) address, the
address is tracked in one of the two sets. -/
theorem syncStep_covers_self (c : String → Bool) (st : ServerState) (a : String)
    (hfix : normalizeAddress a = a) :
    a ∈ (syncStep c st a).relayConnections ∨
      a ∈ (syncStep c st a).failedRelays := by
  unfold syncStep
  split
  · unfold addRelay
    simp only [hfix]
    split
    · exact Or.inl (mem_insertAddr_self _ _)
    · exact Or.inr (mem_insertAddr_self _ _)
  · rename_i h
    by_cases h1 : a ∈ st.relayConnections
    · exact Or.inl h1
    · by_cases h2 : a ∈ st.failedRelays
      · exact Or.inr h2
      · exact absurd ⟨h1, h2⟩ h

/-- Helper: after the first sync loop, every listed (already normalized)
address is tracked in one of the two sets. -/
theorem syncPhase1_covers (c : String → Bool) (l : List String) :
    ∀ st : ServerState, (∀ a ∈ l, normalizeAddress a = a) →
      ∀ a ∈ l, a ∈ (syncPhase1 c l st).relayConnections ∨
        a ∈ (syncPhase1 c l st).failedRelays := by
  induction l with
  | nil =>
      intro st hfix a ha
      cases ha
  | cons b tl ih =>
      intro st hfix a ha
      rcases List.mem_cons.mp ha with h | h
      · subst h
        exact syncPhase1_mem_mono c tl _ a
          (syncStep_covers_self c st a (hfix a (List.mem_cons_self _ _)))
      · exact ih (syncStep c st b)
          (fun x hx => hfix x (List.mem_cons_of_mem _ hx)) a h

/-- Helper: the first sync loop is the identity on a state that already
tracks every listed address. -/
theorem syncPhase1_id (c : String → Bool) (l : List String) :
    ∀ st : ServerState,
      (∀ a ∈ l, a ∈ st.relayConnections ∨ a ∈ st.failedRelays) →
      syncPhase1 c l st = st := by
  induction l with
  | nil => intro st h; rfl
  | cons b tl ih =>
      intro st h
      have hb : syncStep c st b = st := by
        unfold syncStep
        rcases h b (List.mem_cons_self _ _) with h1 | h1
        · simp [h1]
        · simp [h1]
      show List.foldl (syncStep c) (syncStep c st b) tl = st
      rw [hb]
      exact ih st (fun a ha => h a (List.mem_cons_of_mem _ ha))

/-- C8: syncRelayConnections is idempotent.  For any fixed connection
environment, any configured relay-address list and any starting state,
running the synchronization twice in succession yields exactly the same
server state, in particular the same active relay-connection set and the
same failed-relay set, as running it once. -/
theorem syncRelayConnections_idempotent (connects : String → Bool)
    (cfg : List String) (s : ServerState) :
    syncRelayConnections connects cfg (syncRelayConnections connects cfg s) =
      syncRelayConnections connects cfg s := by
  have hfix : ∀ a ∈ cfg.map normalizeAddress, normalizeAddress a = a := by
    intro a ha
    obtain ⟨b, hb, rfl⟩ := List.mem_map.mp ha
    exact normalizeAddress_idem b
  set T := cfg.map normalizeAddress with hT
  set p1 := syncPhase1 connects T s with hp1
  set r := syncPhase3 T (syncPhase2 T p1) with hr
  have hrc : r.relayConnections =
      p1.relayConnections.filter (fun k => decide (normalizeAddress k ∈ T)) := rfl
  have hrf : r.failedRelays =
      p1.failedRelays.filter (fun a => decide (a ∈ T)) := rfl
  have hcov1 : ∀ a ∈ T, a ∈ p1.relayConnections ∨ a ∈ p1.failedRelays :=
    syncPhase1_covers connects T s hfix
  have hcovr : ∀ a ∈ T, a ∈ r.relayConnections ∨ a ∈ r.failedRelays := by
    intro a ha
    rcases hcov1 a ha with h | h
    · refine Or.inl ?_
      rw [hrc]
      refine List.mem_filter.mpr ⟨h, ?_⟩
      simp [hfix a ha, ha]
    · refine Or.inr ?_
      rw [hrf]
      refine List.mem_filter.mpr ⟨h, ?_⟩
      simp [ha]
  have hA : syncPhase1 connects T r = r := syncPhase1_id connects T r hcovr
  have hB : syncPhase2 T r = r := by
    have hf : r.relayConnections.filter (fun k => decide (normalizeAddress k ∈ T)) =
        r.relayConnections := by
      refine List.filter_eq_self.mpr ?_
      intro k hk
      rw [hrc] at hk
      exact (List.mem_filter.mp hk).2
    show { r with relayConnections :=
        r.relayConnections.filter (fun k => decide (normalizeAddress k ∈ T)) } = r
    rw [hf]
  have hC : syncPhase3 T r = r := by
    have hf : r.failedRelays.filter (fun a => decide (a ∈ T)) = r.failedRelays := by
      refine List.filter_eq_self.mpr ?_
      intro k hk
      rw [hrf] at hk
      exact (List.mem_filter.mp hk).2
    show { r with failedRelays :=
        r.failedRelays.filter (fun a => decide (a ∈ T)) } = r
    rw [hf]
  show syncPhase3 T (syncPhase2 T (syncPhase1 connects T r)) = r
  rw [hA, hB, hC]

/-- C10 witness: the theorem applied to the concrete disconnected state and
to the concrete non-OK result string NO. -/
theorem facade_unavailable_maps_to_false_witness :
    (send stateDisconnected ⟨"pushFile", none⟩).result = .unavailable ∧
    (pushFile (.success (.str ("NO"))) = .value false ∧
     deleteFile (.success (.str ("NO"))) = .value false ∧
     pushFile (.success (.str ("NO"))) = pushFile .unavailable ∧
     deleteFile (.success (.str ("NO"))) = deleteFile .unavailable) :=
  ⟨facade_unavailable_maps_to_false.1 stateDisconnected ⟨"pushFile", none⟩ rfl,
   facade_unavailable_maps_to_false.2.2.2 (.str ("NO")) (by decide)⟩

end Bitburner
